import Mathlib

/-!
# Verification of the Helena safety-switch scheduler (`src/main.py`)

A shallow embedding of the core of `main.py`: the weekly-event data model,
the disarm detector (`on_message`), the minute-resolution alert loop
(`alert_loop`), YAML persistence (`load_events_from_yaml`,
`save_events_to_yaml`) and the `remove_event` command.

Modelling conventions:
* Wall-clock instants are modelled by a `Clock`: the weekday name as produced
  by pendulum's `format("dddd")`, the second-of-day, and the absolute epoch
  second.  Pendulum's `Duration.total_minutes()` comparisons are carried out
  in integer seconds (`≤ 30` minutes becomes `≤ 1800` seconds, `> 60` minutes
  becomes `> 3600` seconds), which is exact at second granularity.
* `pendulum.parse` applied to an event's `time_of_day` value is modelled by
  `parseHHMM`, which accepts exactly the documented `"HH:MM"` schema and
  fails (`none`) on any other string and on non-string values; in Python a
  failure raises, which the embedding surfaces as `Except.error` at the
  call sites that have no enclosing `try`.
* Discord side effects (channel broadcast, DMs, replies, log lines) are
  recorded as an `Effect` trace.  Transport outcomes (`get_channel`
  truthiness, `channel.send`, `fetch_user`/`user.send`) are supplied by an
  `Env` oracle; a raised exception inside the per-event `try` of
  `alert_loop` is modelled by the corresponding branch of `fireEvent`.
* `alert_loop` receives the already minute-truncated clock (the code's
  `pendulum.now("UTC").start_of('minute')`), so its `secOfDay` is a multiple
  of 60 on real ticks.
* The YAML file is modelled as a `Storage` value; `event.__dict__` is
  modelled by `eventDict`: the two dataclass fields are always present, and
  `triggered_this_week` appears exactly when it has been assigned on the
  instance, which in every reachable state happens iff the event has fired
  (the only assignment is `event.triggered_this_week = True`).  `yaml.dump`
  sorts keys alphabetically, which `eventDict` reproduces.
* Python does not enforce the dataclass field annotations: an event's
  `time_of_day` / `day_of_week` hold whatever value was passed to
  `__init__` (for loaded events, whatever scalar `yaml.safe_load`
  produced).  The fields therefore have the scalar-value type `YVal`, and
  `WeeklySwitchEvent(**record)` constructs without any type check; only a
  missing or extra keyword raises.
-/

/-- A scalar value as produced by `yaml.safe_load` / passed to the
dataclass constructor: the strings of normal operation, or a YAML
boolean (the annotations `time_of_day: str`, `day_of_week: str` are not
enforced by Python). -/
inductive YVal
  | s (v : String)
  | b (v : Bool)
deriving Repr, DecidableEq

/-- Rendering of a scalar into an f-string, as Python `str()` does. -/
def YVal.render : YVal → String
  | .s v => v
  | .b v => if v then "True" else "False"

/-- Decimal value of a digit character, `none` on non-digits. -/
def digitVal (c : Char) : Option Nat :=
  if c.isDigit then some (c.toNat - 48) else none

/-- Model of `pendulum.parse` on an event's `time_of_day` value, returning
minutes since midnight.  Accepts exactly the documented `"HH:MM"` 24-hour
schema; any other string raises in pendulum, and so does a non-string
value, both modelled by `none`. -/
def parseHHMM : YVal → Option Nat
  | .b _ => none
  | .s s =>
    match s.toList with
    | [h1, h2, c, m1, m2] =>
      if c = ':' then
        match digitVal h1, digitVal h2, digitVal m1, digitVal m2 with
        | some a, some b, some d, some e =>
          if 10 * a + b < 24 && 10 * d + e < 60 then
            some ((10 * a + b) * 60 + (10 * d + e))
          else none
        | _, _, _, _ => none
      else none
    | _ => none

/-- The dataclass `WeeklySwitchEvent` of `main.py`.  `armed` and
`triggered_this_week` are class-level attributes defaulting to `true` and
`false`; reading an instance attribute falls back to the class value, so the
flags are modelled as fields with those defaults.  The two data fields hold
arbitrary scalars because Python does not check the `str` annotations; in
normal operation they are the `"HH:MM"` and weekday-name strings. -/
structure WeeklySwitchEvent where
  time_of_day : YVal
  day_of_week : YVal
  armed : Bool := true
  triggered_this_week : Bool := false
deriving Repr, DecidableEq

/-- A wall-clock instant: `weekday` is pendulum's `format("dddd")`,
`secOfDay` the seconds since midnight UTC, `epochSec` the absolute second. -/
structure Clock where
  weekday : String
  secOfDay : Nat
  epochSec : Int
deriving Repr, DecidableEq

/-- Observable side effects of the bot: channel broadcast, direct message,
reply in the originating channel, log lines. -/
inductive Effect
  | broadcast (msg : String)
  | dm (userId : String) (msg : String)
  | reply (msg : String)
  | logInfo (msg : String)
  | logError (msg : String)
deriving Repr, DecidableEq

/-- The confirmation text sent by `on_message` on a successful disarm. -/
def disarmReply : String := "Safety Switch has been disarmed. Thank you!"

/-- The match condition of `on_message` for one event whose `time_of_day`
parsed to `m` minutes: the event's weekday equals today's weekday (Python
`==` against the weekday string, false for a non-string value) and
`(event_datetime - now).total_minutes() <= 30`, i.e. in seconds
`m * 60 - secOfDay ≤ 1800`.  There is no lower bound on the difference. -/
def disarmMatch (c : Clock) (ev : WeeklySwitchEvent) (m : Nat) : Bool :=
  ev.day_of_week == YVal.s c.weekday
    && decide ((m : Int) * 60 - (c.secOfDay : Int) ≤ 1800)

/-- Whether an event matches the disarm window at clock `c` (an unparseable
`time_of_day` never reaches a successful comparison). -/
def eventMatches (c : Clock) (ev : WeeklySwitchEvent) : Bool :=
  match parseHHMM ev.time_of_day with
  | some m => disarmMatch c ev m
  | none => false

/-- The body of `on_message` for a non-bot message in the `CHECK_IN` channel
(lines 92–101 of `main.py`): scan events in list order; on the first match
set `last_disarm_time = now`, send the confirmation and `break`.
`pendulum.parse` has no enclosing `try` here, so an unparseable
`time_of_day` reached before a match raises, modelled by `Except.error`.
Returns the new `last_disarm_time` and the effect trace. -/
def on_message (c : Clock) (lastDisarm : Option Int) :
    List WeeklySwitchEvent → Except String (Option Int × List Effect)
  | [] => .ok (lastDisarm, [])
  | ev :: rest =>
    match parseHHMM ev.time_of_day with
    | none => .error ("unparseable time_of_day: " ++ ev.time_of_day.render)
    | some m =>
      if disarmMatch c ev m then
        .ok (some c.epochSec, [Effect.reply disarmReply])
      else
        on_message c lastDisarm rest

/-- Outcome of `fetch_user(id)` followed by `user.send(...)` for one
recipient: the DM was sent, the user object was falsy (no send, loop
continues), or one of the two awaits raised. -/
inductive DMResult
  | sent
  | userNone
  | raised
deriving Repr, DecidableEq

/-- Transport oracle for one alert pass: truthiness of
`bot.get_channel(Channel.ALERTS.value)`, success of the broadcast
`channel.send`, and the per-recipient DM outcome. -/
structure Env where
  channelFound : Bool
  broadcastOk : Bool
  dmResult : String → DMResult

/-- The DM loop of `alert_loop` (lines 160–163): for each recipient id,
fetch the user and send; a raised exception aborts the loop (control jumps
to the `except`).  Returns the DM effects and whether the loop completed
without raising. -/
def runDMs (env : Env) (msg : String) : List String → List Effect × Bool
  | [] => ([], true)
  | id :: rest =>
    match env.dmResult id with
    | .raised => ([], false)
    | .userNone => runDMs env msg rest
    | .sent =>
      let (es, done) := runDMs env msg rest
      (Effect.dm id msg :: es, done)

/-- Two-digit zero-padded decimal rendering. -/
def pad2 (n : Nat) : String :=
  if n < 10 then "0" ++ toString n else toString n

/-- Rendering of `now.time()` as interpolated into the alert f-string. -/
def fmtTime (secOfDay : Nat) : String :=
  pad2 (secOfDay / 3600) ++ ":" ++ pad2 (secOfDay % 3600 / 60) ++ ":" ++ pad2 (secOfDay % 60)

/-- The alert text of lines 154–157. -/
def alertMessage (currentDay currentTime tod : String) : String :=
  "Hey! It's " ++ currentDay ++ " at " ++ currentTime ++ " UTC and the "
    ++ tod ++ " Safety Switch was not disarmed!"

/-- The `logger.info` line emitted after a completed firing (line 167). -/
def triggeredLog (ev : WeeklySwitchEvent) : String :=
  "Event " ++ ev.day_of_week.render ++ " at " ++ ev.time_of_day.render
    ++ " has been triggered and disarmed for this week."

/-- The `try` block of `alert_loop` (lines 151–172), entered once the match
and grace checks have passed: resolve the alerts channel; if found, send the
broadcast, then DM each recipient, then set `triggered_this_week = True` and
log.  A raised exception anywhere in the block jumps to the `except`
(logged, nothing rolled back); the flag assignment comes after every send,
so it is skipped whenever any send raised. -/
def fireEvent (env : Env) (dmIds : List String) (msg : String)
    (ev : WeeklySwitchEvent) : WeeklySwitchEvent × List Effect :=
  if env.channelFound then
    if env.broadcastOk then
      let (dmEffs, completed) := runDMs env msg dmIds
      if completed then
        ({ ev with triggered_this_week := true },
          Effect.broadcast msg :: dmEffs ++ [Effect.logInfo (triggeredLog ev)])
      else
        (ev, Effect.broadcast msg :: dmEffs
          ++ [Effect.logError "Error during weekly check-in"])
    else
      (ev, [Effect.logError "Error during weekly check-in"])
  else
    (ev, [Effect.logError "Channel not found!"])

/-- The grace check of line 150:
`last_disarm_time is None or (now - last_disarm_time).total_minutes() > 60`. -/
def graceOpen (c : Clock) (lastDisarm : Option Int) : Bool :=
  match lastDisarm with
  | none => true
  | some t => decide (c.epochSec - t > 3600)

/-- One iteration of the `for event in self.weekly_events` loop of
`alert_loop` (lines 142–172).  `pendulum.parse` on line 143 sits outside the
`try`, so an unparseable `time_of_day` raises out of the pass
(`Except.error`).  The event fires only if the weekday matches, the current
(minute-truncated) time equals the event time, the weekly flag is unset and
the grace window is open. -/
def processEvent (c : Clock) (lastDisarm : Option Int) (env : Env)
    (dmIds : List String) (ev : WeeklySwitchEvent) :
    Except String (WeeklySwitchEvent × List Effect) :=
  match parseHHMM ev.time_of_day with
  | none => .error ("unparseable time_of_day: " ++ ev.time_of_day.render)
  | some m =>
    if YVal.s c.weekday == ev.day_of_week && c.secOfDay == m * 60
        && !ev.triggered_this_week then
      if graceOpen c lastDisarm then
        .ok (fireEvent env dmIds
          (alertMessage c.weekday (fmtTime c.secOfDay) ev.time_of_day.render) ev)
      else
        .ok (ev, [])
    else
      .ok (ev, [])

/-- Result of one per-minute pass of `alert_loop`: the event list after the
pass, the emitted effects, and the uncaught exception if the pass raised
(in which case the remaining events were not examined but stay in the
list, and the effects of earlier iterations have already happened). -/
structure PassResult where
  events : List WeeklySwitchEvent
  effects : List Effect
  raised : Option String
deriving Repr, DecidableEq

/-- One per-minute pass of `alert_loop` (lines 136–172) over the event list,
with `c` the already minute-truncated `now`.  An exception escaping
`processEvent` (the out-of-`try` parse) aborts the pass: earlier events keep
their updates and effects, the current and later events are untouched. -/
def alert_loop (c : Clock) (lastDisarm : Option Int) (env : Env)
    (dmIds : List String) : List WeeklySwitchEvent → PassResult
  | [] => ⟨[], [], none⟩
  | ev :: rest =>
    match processEvent c lastDisarm env dmIds ev with
    | .error e => ⟨ev :: rest, [], some e⟩
    | .ok (ev', effs) =>
      let r := alert_loop c lastDisarm env dmIds rest
      ⟨ev' :: r.events, effs ++ r.effects, r.raised⟩

/-- One YAML mapping (a persisted event record), keys distinct. -/
abbrev YRecord := List (String × YVal)

/-- The contents of `weekly_events.yaml` as seen by
`load_events_from_yaml`: the file is missing (`FileNotFoundError`), it fails
to parse as a list of mappings (any other exception while reading), or it
parsed to a list of records. -/
inductive Storage
  | missing
  | malformed
  | records (rs : List YRecord)
deriving Repr, DecidableEq

/-- What `load_events_from_yaml` logged: a normal load, the missing-file
warning (line 111), or the catch-all `logger.error` (line 114). -/
inductive LoadLog
  | loaded
  | missingWarn
  | errLog
deriving Repr, DecidableEq

/-- `event.__dict__` of a `WeeklySwitchEvent` instance, in the alphabetical
key order used by `yaml.dump` (its default sorts keys).  The two dataclass
fields are always instance attributes; `triggered_this_week` is a class
attribute that becomes an instance attribute only when assigned, which in
every reachable state of the bot happens exactly when the event has fired
(the sole assignment is `event.triggered_this_week = True` on line 166);
`armed` is never assigned and so never appears. -/
def eventDict (ev : WeeklySwitchEvent) : YRecord :=
  if ev.triggered_this_week then
    [("day_of_week", ev.day_of_week), ("time_of_day", ev.time_of_day),
      ("triggered_this_week", YVal.b true)]
  else
    [("day_of_week", ev.day_of_week), ("time_of_day", ev.time_of_day)]

/-- `save_events_to_yaml` (lines 117–123): dump
`[event.__dict__ for event in self.weekly_events]`.  (A write failure is
caught and logged; the written contents, when the write succeeds, are the
returned records.) -/
def save_events_to_yaml (events : List WeeklySwitchEvent) : List YRecord :=
  events.map eventDict

/-- `WeeklySwitchEvent(**record)`: the dataclass `__init__` takes exactly
the keyword arguments `time_of_day` and `day_of_week`; a missing or extra
key raises `TypeError` (`none`).  The values are not type-checked: Python
assigns whatever scalars arrive, so a boolean-valued field still
constructs. -/
def constructEvent (r : YRecord) : Option WeeklySwitchEvent :=
  match r.lookup "time_of_day", r.lookup "day_of_week" with
  | some t, some d =>
    if r.length = 2 then some ⟨t, d, true, false⟩ else none
  | _, _ => none

/-- The list comprehension of line 107: construct an event from every
record; the first failure raises out of the comprehension (`none`). -/
def constructAll : List YRecord → Option (List WeeklySwitchEvent)
  | [] => some []
  | r :: rs =>
    match constructEvent r, constructAll rs with
    | some ev, some evs => some (ev :: evs)
    | _, _ => none

/-- `load_events_from_yaml` (lines 103–115): on success the constructed
events; `FileNotFoundError` gives `[]` with a warning; any other exception
(parse failure, a record that does not construct) gives `[]` with
`logger.error`.  No exception escapes. -/
def load_events_from_yaml : Storage → List WeeklySwitchEvent × LoadLog
  | .missing => ([], .missingWarn)
  | .malformed => ([], .errLog)
  | .records rs =>
    match constructAll rs with
    | some evs => (evs, .loaded)
    | none => ([], .errLog)

/-- Outcome of the `remove_event` command: the in-memory list afterwards,
the records written by `save_events_to_yaml` (or `none` when no save
happened), and the reply text. -/
structure CmdResult where
  events : List WeeklySwitchEvent
  saved : Option (List YRecord)
  reply : String
deriving Repr, DecidableEq

/-- The not-found reply of line 205. -/
def noEventMsg (day time : String) : String :=
  "No event found for " ++ day ++ " at " ++ time ++ " UTC to remove."

/-- The removal confirmation of line 208. -/
def removedMsg (day time : String) : String :=
  "Event for " ++ day ++ " at " ++ time ++ " UTC has been removed."

/-- `remove_event` (lines 198–208): filter out every event whose day and
time both equal the (string) command arguments; if the length did not
change reply "not found" without saving, otherwise save the new list and
confirm. -/
def remove_event (events : List WeeklySwitchEvent) (day_of_week time_of_day : String) :
    CmdResult :=
  let after := events.filter fun ev =>
    !(ev.day_of_week == YVal.s day_of_week && ev.time_of_day == YVal.s time_of_day)
  if events.length = after.length then
    ⟨after, none, noEventMsg day_of_week time_of_day⟩
  else
    ⟨after, some (save_events_to_yaml after), removedMsg day_of_week time_of_day⟩

/-! ## Helper lemmas -/

/-- When every recipient's fetch-and-send succeeds, the DM loop sends one
message to each recipient, in order, and completes. -/
theorem runDMs_all_sent (env : Env) (msg : String) (ids : List String)
    (h : ∀ id ∈ ids, env.dmResult id = DMResult.sent) :
    runDMs env msg ids = (ids.map fun id => Effect.dm id msg, true) := by
  induction ids with
  | nil => rfl
  | cons id rest ih =>
    have hid := h id (List.mem_cons_self id rest)
    have hrest := ih fun j hj => h j (List.mem_cons_of_mem id hj)
    simp [runDMs, hid, hrest]

/-- When the DM for `id` raises and no earlier DM raised, the loop emits one
DM per earlier recipient whose send succeeded and then aborts; recipients
after `id` are never attempted. -/
theorem runDMs_raised_mid (env : Env) (msg : String) (ids1 ids2 : List String)
    (id : String) (hid : env.dmResult id = DMResult.raised)
    (h1 : ∀ j ∈ ids1, env.dmResult j ≠ DMResult.raised) :
    runDMs env msg (ids1 ++ id :: ids2)
      = ((ids1.filter fun j => env.dmResult j == DMResult.sent).map
          (fun j => Effect.dm j msg), false) := by
  induction ids1 with
  | nil => simp [runDMs, hid]
  | cons j rest ih =>
    have hj := h1 j (List.mem_cons_self j rest)
    have hrest := ih fun k hk => h1 k (List.mem_cons_of_mem j hk)
    cases hdm : env.dmResult j with
    | raised => exact absurd hdm hj
    | userNone => simp [runDMs, hdm, hrest, List.filter_cons]
    | sent => simp [runDMs, hdm, hrest, List.filter_cons]

/-- With a parseable `time_of_day`, `processEvent` never raises: all
exceptions inside the firing block are caught by the `except`. -/
theorem processEvent_ok_of_parse (c : Clock) (ld : Option Int) (env : Env)
    (ids : List String) (ev : WeeklySwitchEvent) (m : Nat)
    (hp : parseHHMM ev.time_of_day = some m) :
    ∃ p, processEvent c ld env ids ev = Except.ok p := by
  unfold processEvent
  simp only [hp]
  by_cases h1 : (YVal.s c.weekday == ev.day_of_week && c.secOfDay == m * 60
      && !ev.triggered_this_week) = true
  · rw [if_pos h1]
    by_cases h2 : graceOpen c ld = true
    · rw [if_pos h2]; exact ⟨_, rfl⟩
    · rw [if_neg h2]; exact ⟨_, rfl⟩
  · rw [if_neg h1]; exact ⟨_, rfl⟩

/-! ## Claim theorems -/

/-- C1: the claim says `triggered_this_week`, once set by a firing, is reset
by the next calendar occurrence of the event's weekday+time, making the
event eligible to fire again each week.  The code never resets the flag:
after the Monday-09:00 firing in week one, the Monday-09:00 tick exactly
seven days later (epoch 32400 + 604800 = 637200) finds the flag still true,
fires nothing, and leaves the flag true — the event is never eligible
again. -/
theorem triggered_flag_never_reset_across_weeks :
    (alert_loop ⟨"Monday", 32400, 32400⟩ none ⟨true, true, fun _ => DMResult.sent⟩
        ["u1", "u2", "u3"] [⟨YVal.s "09:00", YVal.s "Monday", true, false⟩]).events
      = [⟨YVal.s "09:00", YVal.s "Monday", true, true⟩]
  ∧ alert_loop ⟨"Monday", 32400, 637200⟩ none ⟨true, true, fun _ => DMResult.sent⟩
        ["u1", "u2", "u3"] [⟨YVal.s "09:00", YVal.s "Monday", true, true⟩]
      = ⟨[⟨YVal.s "09:00", YVal.s "Monday", true, true⟩], [], none⟩ :=
  ⟨rfl, rfl⟩

/-- C2: an event with `triggered_this_week = false` matching the current
weekday and minute, with the disarm grace expired (no disarm, or more than
60 minutes = 3600 s ago), fires exactly one broadcast, exactly one DM per
configured recipient in order, and comes out with the flag set — assuming
the channel resolves and every send succeeds. -/
theorem alert_fires_exactly_once_when_undisarmed
    (c : Clock) (ld : Option Int) (env : Env) (ids : List String)
    (ev : WeeklySwitchEvent) (m : Nat)
    (hp : parseHHMM ev.time_of_day = some m)
    (hday : YVal.s c.weekday = ev.day_of_week)
    (htime : c.secOfDay = m * 60)
    (hflag : ev.triggered_this_week = false)
    (hgrace : ld = none ∨ ∃ t, ld = some t ∧ c.epochSec - t > 3600)
    (hch : env.channelFound = true)
    (hbc : env.broadcastOk = true)
    (hdm : ∀ id ∈ ids, env.dmResult id = DMResult.sent) :
    processEvent c ld env ids ev
      = Except.ok ({ ev with triggered_this_week := true },
          Effect.broadcast (alertMessage c.weekday (fmtTime c.secOfDay) ev.time_of_day.render)
            :: (ids.map fun id =>
                Effect.dm id (alertMessage c.weekday (fmtTime c.secOfDay) ev.time_of_day.render))
            ++ [Effect.logInfo (triggeredLog ev)]) := by
  have hg : graceOpen c ld = true := by
    rcases hgrace with h | ⟨t, ht, hgt⟩
    · rw [h]; rfl
    · rw [ht]; simpa [graceOpen] using hgt
  unfold processEvent
  simp only [hp, hday, htime, hflag, beq_self_eq_true, Bool.not_false, Bool.and_true,
    Bool.and_self, if_pos, hg, if_true]
  unfold fireEvent
  rw [if_pos hch, if_pos hbc,
    runDMs_all_sent env (alertMessage c.weekday (fmtTime (m * 60)) ev.time_of_day.render)
      ids hdm]
  rfl

/-- C2 witness: concrete firing on Monday 09:00 with three recipients. -/
theorem alert_fires_exactly_once_when_undisarmed_witness :
    processEvent ⟨"Monday", 32400, 32400⟩ none ⟨true, true, fun _ => DMResult.sent⟩
        ["u1", "u2", "u3"] ⟨YVal.s "09:00", YVal.s "Monday", true, false⟩
      = Except.ok (⟨YVal.s "09:00", YVal.s "Monday", true, true⟩,
          Effect.broadcast (alertMessage "Monday" (fmtTime 32400) "09:00")
            :: (["u1", "u2", "u3"].map fun id =>
                Effect.dm id (alertMessage "Monday" (fmtTime 32400) "09:00"))
            ++ [Effect.logInfo (triggeredLog ⟨YVal.s "09:00", YVal.s "Monday", true, false⟩)]) :=
  alert_fires_exactly_once_when_undisarmed ⟨"Monday", 32400, 32400⟩ none
    ⟨true, true, fun _ => DMResult.sent⟩ ["u1", "u2", "u3"]
    ⟨YVal.s "09:00", YVal.s "Monday", true, false⟩ 540 rfl rfl rfl rfl (Or.inl rfl) rfl rfl
    (fun _ _ => rfl)

/-- C3: an event matching the current weekday and minute whose flag is
unset does not fire when a disarm is recorded at most 60 minutes
(3600 seconds, boundary included) before the tick: no effect is emitted and
the event — in particular its `triggered_this_week = false` — is
unchanged. -/
theorem no_alert_within_disarm_grace
    (c : Clock) (t : Int) (env : Env) (ids : List String)
    (ev : WeeklySwitchEvent) (m : Nat)
    (hp : parseHHMM ev.time_of_day = some m)
    (hday : YVal.s c.weekday = ev.day_of_week)
    (htime : c.secOfDay = m * 60)
    (hflag : ev.triggered_this_week = false)
    (ht : c.epochSec - t ≤ 3600) :
    processEvent c (some t) env ids ev = Except.ok (ev, []) := by
  have hg : graceOpen c (some t) = false := by
    simpa [graceOpen] using ht
  unfold processEvent
  simp only [hp, hday, htime, hflag, beq_self_eq_true, Bool.not_false, Bool.and_true,
    Bool.and_self, if_pos, hg, if_false, Bool.false_eq_true]

/-- C3 witness: disarm exactly 60 minutes before the Monday 09:00 tick
(epoch 32400, disarm at 28800) — boundary case, no alert. -/
theorem no_alert_within_disarm_grace_witness :
    processEvent ⟨"Monday", 32400, 32400⟩ (some 28800)
        ⟨true, true, fun _ => DMResult.sent⟩ ["u1", "u2", "u3"]
        ⟨YVal.s "09:00", YVal.s "Monday", true, false⟩
      = Except.ok (⟨YVal.s "09:00", YVal.s "Monday", true, false⟩, []) :=
  no_alert_within_disarm_grace ⟨"Monday", 32400, 32400⟩ 28800
    ⟨true, true, fun _ => DMResult.sent⟩ ["u1", "u2", "u3"]
    ⟨YVal.s "09:00", YVal.s "Monday", true, false⟩ 540 rfl rfl rfl rfl (by decide)

/-- C4: for a check-in message at clock `c` (with every event time
parseable, as the schema requires), an event matches iff its weekday equals
today's weekday and `occurrence - now ≤ 30` minutes (1800 s) — with no
lower bound; the scan takes the first match in list order, sets
`last_disarm_time` to the message time, sends one confirmation and stops;
with no match the disarm time and effects are untouched. -/
theorem disarm_first_match_semantics
    (c : Clock) (ld : Option Int) (events : List WeeklySwitchEvent)
    (hp : ∀ ev ∈ events, (parseHHMM ev.time_of_day).isSome = true) :
    (∀ (ev : WeeklySwitchEvent) (m : Nat), parseHHMM ev.time_of_day = some m →
        (eventMatches c ev = true ↔
          (ev.day_of_week = YVal.s c.weekday
            ∧ (m : Int) * 60 - (c.secOfDay : Int) ≤ 1800)))
  ∧ on_message c ld events
      = Except.ok (match events.find? (eventMatches c) with
          | some _ => (some c.epochSec, [Effect.reply disarmReply])
          | none => (ld, [])) := by
  constructor
  · intro ev m hm
    unfold eventMatches disarmMatch
    rw [hm]
    simp [Bool.and_eq_true, beq_iff_eq, decide_eq_true_iff]
  · induction events with
    | nil => rfl
    | cons ev rest ih =>
      obtain ⟨m, hm⟩ := Option.isSome_iff_exists.mp (hp ev (List.mem_cons_self ev rest))
      have hmatch : eventMatches c ev = disarmMatch c ev m := by
        unfold eventMatches; rw [hm]
      unfold on_message
      simp only [hm]
      cases hd : disarmMatch c ev m with
      | true =>
        rw [List.find?_cons_of_pos rest (by rw [hmatch, hd])]
        rfl
      | false =>
        rw [List.find?_cons_of_neg rest (by rw [hmatch, hd]; simp),
          if_neg (by simp),
          ih fun e he => hp e (List.mem_cons_of_mem ev he)]

/-- C4 witness: at Monday 08:30 UTC (second 30600 of the day) against a
non-matching Friday event followed by two Monday events, the first Monday
event (09:00, thirty minutes ahead — the boundary) matches first: the
disarm time becomes the message time and one confirmation is sent. -/
theorem disarm_first_match_semantics_witness :
    on_message ⟨"Monday", 30600, 30600⟩ none
        [⟨YVal.s "10:00", YVal.s "Friday", true, false⟩, ⟨YVal.s "09:00", YVal.s "Monday", true, false⟩,
          ⟨YVal.s "08:00", YVal.s "Monday", true, false⟩]
      = Except.ok (some 30600, [Effect.reply disarmReply]) :=
  (disarm_first_match_semantics ⟨"Monday", 30600, 30600⟩ none
    [⟨YVal.s "10:00", YVal.s "Friday", true, false⟩, ⟨YVal.s "09:00", YVal.s "Monday", true, false⟩,
      ⟨YVal.s "08:00", YVal.s "Monday", true, false⟩] (by decide)).2

/-- C10: the disarm detector never consults `armed` or
`triggered_this_week`: rewriting both flags on every event leaves the whole
scan unchanged, and in particular an event whose alert already fired this
week (`triggered_this_week = true`) still matches under the
weekday/30-minute condition, still records `last_disarm_time = now` and
still produces the confirmation reply. -/
theorem disarm_ignores_event_flags :
    (∀ (c : Clock) (ld : Option Int) (events : List WeeklySwitchEvent) (a t : Bool),
        on_message c ld (events.map fun ev =>
            { ev with armed := a, triggered_this_week := t })
          = on_message c ld events)
  ∧ (∀ (c : Clock) (ld : Option Int) (ev : WeeklySwitchEvent)
        (rest : List WeeklySwitchEvent) (m : Nat),
        ev.triggered_this_week = true →
        parseHHMM ev.time_of_day = some m →
        disarmMatch c ev m = true →
        on_message c ld (ev :: rest)
          = Except.ok (some c.epochSec, [Effect.reply disarmReply])) := by
  constructor
  · intro c ld events a t
    induction events with
    | nil => rfl
    | cons ev rest ih =>
      obtain ⟨tod, dow, ar, tr⟩ := ev
      simp only [List.map_cons]
      unfold on_message
      dsimp only
      cases hm : parseHHMM tod with
      | none => rfl
      | some m =>
        dsimp only
        by_cases hcond : disarmMatch c ⟨tod, dow, a, t⟩ m = true
        · rw [if_pos hcond,
            if_pos (show disarmMatch c ⟨tod, dow, ar, tr⟩ m = true from hcond)]
        · rw [if_neg hcond,
            if_neg (show ¬disarmMatch c ⟨tod, dow, ar, tr⟩ m = true from hcond)]
          exact ih
  · intro c ld ev rest m hflag hm hmatch
    unfold on_message
    simp only [hm]
    rw [if_pos hmatch]

/-- C10 witness: an already-triggered Monday 09:00 event still disarms a
Monday 08:30 check-in. -/
theorem disarm_ignores_event_flags_witness :
    on_message ⟨"Monday", 30600, 30600⟩ none [⟨YVal.s "09:00", YVal.s "Monday", true, true⟩]
      = Except.ok (some 30600, [Effect.reply disarmReply]) :=
  disarm_ignores_event_flags.2 ⟨"Monday", 30600, 30600⟩ none
    ⟨YVal.s "09:00", YVal.s "Monday", true, true⟩ [] 540 rfl rfl (by decide)

/-- C5 counterexample: the claim says a failed DM send does not prevent the
remaining direct messages nor the setting of `triggered_this_week`.  With
recipients `u1, u2, u3` where only `u1`'s DM raises, the firing emits the
broadcast, no DM at all — `u2` and `u3` are never attempted — and leaves
the flag false; only the error log follows. -/
theorem send_failure_blocks_rest_cex :
    processEvent ⟨"Monday", 32400, 32400⟩ none
        ⟨true, true, fun id => if id = "u1" then DMResult.raised else DMResult.sent⟩
        ["u1", "u2", "u3"] ⟨YVal.s "09:00", YVal.s "Monday", true, false⟩
      = Except.ok (⟨YVal.s "09:00", YVal.s "Monday", true, false⟩,
          [Effect.broadcast (alertMessage "Monday" (fmtTime 32400) "09:00"),
            Effect.logError "Error during weekly check-in"]) := by
  rfl

/-- C5 amended: a raised send inside the firing block aborts the rest of
that event's firing.  If the broadcast raises, no DM is attempted; if the
DM for recipient `id` raises after the broadcast succeeded, only the
earlier recipients whose sends succeeded got a DM and the recipients after
`id` are never attempted.  In both cases `triggered_this_week` stays false
(the event is returned unchanged) and the exception is caught and logged,
so the loop goes on. -/
theorem send_failure_aborts_firing
    (c : Clock) (ld : Option Int) (env : Env) (ids1 ids2 : List String)
    (id : String) (ev : WeeklySwitchEvent) (m : Nat)
    (hp : parseHHMM ev.time_of_day = some m)
    (hday : YVal.s c.weekday = ev.day_of_week)
    (htime : c.secOfDay = m * 60)
    (hflag : ev.triggered_this_week = false)
    (hgrace : graceOpen c ld = true)
    (hch : env.channelFound = true) :
    (env.broadcastOk = false →
      processEvent c ld env (ids1 ++ id :: ids2) ev
        = Except.ok (ev, [Effect.logError "Error during weekly check-in"]))
  ∧ (env.broadcastOk = true → env.dmResult id = DMResult.raised →
      (∀ j ∈ ids1, env.dmResult j ≠ DMResult.raised) →
      processEvent c ld env (ids1 ++ id :: ids2) ev
        = Except.ok (ev,
            Effect.broadcast (alertMessage c.weekday (fmtTime c.secOfDay) ev.time_of_day.render)
              :: ((ids1.filter fun j => env.dmResult j == DMResult.sent).map fun j =>
                  Effect.dm j (alertMessage c.weekday (fmtTime c.secOfDay) ev.time_of_day.render))
              ++ [Effect.logError "Error during weekly check-in"])) := by
  constructor
  · intro hbc
    unfold processEvent
    simp only [hp, hday, htime, hflag, beq_self_eq_true, Bool.not_false, Bool.and_true,
      Bool.and_self, if_pos, hgrace, if_true]
    unfold fireEvent
    rw [if_pos hch, if_neg (by rw [hbc]; simp)]
  · intro hbc hid h1
    unfold processEvent
    simp only [hp, hday, htime, hflag, beq_self_eq_true, Bool.not_false, Bool.and_true,
      Bool.and_self, if_pos, hgrace, if_true]
    unfold fireEvent
    rw [if_pos hch, if_pos hbc,
      runDMs_raised_mid env (alertMessage c.weekday (fmtTime (m * 60)) ev.time_of_day.render)
        ids1 ids2 id hid h1]
    rfl

/-- C5 amended witness: broadcast succeeds, `u0`'s DM is sent, `u1`'s DM
raises, `u2` is never attempted and the flag stays false. -/
theorem send_failure_aborts_firing_witness :
    processEvent ⟨"Monday", 32400, 32400⟩ none
        ⟨true, true, fun id => if id = "u1" then DMResult.raised else DMResult.sent⟩
        (["u0"] ++ "u1" :: ["u2"]) ⟨YVal.s "09:00", YVal.s "Monday", true, false⟩
      = Except.ok (⟨YVal.s "09:00", YVal.s "Monday", true, false⟩,
          Effect.broadcast (alertMessage "Monday" (fmtTime 32400) "09:00")
            :: ((["u0"].filter fun j =>
                  (if j = "u1" then DMResult.raised else DMResult.sent) == DMResult.sent).map
                fun j => Effect.dm j (alertMessage "Monday" (fmtTime 32400) "09:00"))
            ++ [Effect.logError "Error during weekly check-in"]) :=
  (send_failure_aborts_firing ⟨"Monday", 32400, 32400⟩ none
    ⟨true, true, fun id => if id = "u1" then DMResult.raised else DMResult.sent⟩
    ["u0"] ["u2"] "u1" ⟨YVal.s "09:00", YVal.s "Monday", true, false⟩ 540
    rfl rfl rfl rfl rfl rfl).2 rfl rfl (by decide)

/-- C6 counterexample: the claim says every error raised during a
per-minute pass is caught inside the pass, including for events whose
`time_of_day` is unparseable.  The parse on line 143 sits outside the
`try`, so an event with `time_of_day = "banana"` makes the pass raise: the
pass aborts with an uncaught exception and no effect. -/
theorem unparseable_time_raises_cex :
    alert_loop ⟨"Monday", 32400, 32400⟩ none ⟨true, true, fun _ => DMResult.sent⟩
        ["u1"] [⟨YVal.s "banana", YVal.s "Monday", true, false⟩]
      = ⟨[⟨YVal.s "banana", YVal.s "Monday", true, false⟩], [],
          some ("unparseable time_of_day: " ++ "banana")⟩ := by
  rfl

/-- C6 amended: errors raised inside the firing block (channel resolution,
broadcast, DMs) are caught and logged per event, and when every event's
`time_of_day` parses the per-minute pass never raises; but the
`pendulum.parse` of an event's `time_of_day` happens outside the `try`, so
an unparseable `time_of_day` raises out of the pass. -/
theorem pass_never_raises_when_times_parse
    (c : Clock) (ld : Option Int) (env : Env) (ids : List String)
    (events : List WeeklySwitchEvent)
    (hp : ∀ ev ∈ events, (parseHHMM ev.time_of_day).isSome = true) :
    (alert_loop c ld env ids events).raised = none := by
  induction events with
  | nil => rfl
  | cons ev rest ih =>
    obtain ⟨m, hm⟩ := Option.isSome_iff_exists.mp (hp ev (List.mem_cons_self ev rest))
    obtain ⟨p, hpe⟩ := processEvent_ok_of_parse c ld env ids ev m hm
    unfold alert_loop
    rw [hpe]
    exact ih fun e he => hp e (List.mem_cons_of_mem ev he)

/-- C6 amended witness: a two-event list with parseable times never makes
the pass raise, whatever fires. -/
theorem pass_never_raises_when_times_parse_witness :
    (alert_loop ⟨"Monday", 32400, 32400⟩ none ⟨true, true, fun _ => DMResult.sent⟩
        ["u1"] [⟨YVal.s "09:00", YVal.s "Monday", true, false⟩, ⟨YVal.s "10:30", YVal.s "Friday", true, false⟩]).raised
      = none :=
  pass_never_raises_when_times_parse ⟨"Monday", 32400, 32400⟩ none
    ⟨true, true, fun _ => DMResult.sent⟩ ["u1"]
    [⟨YVal.s "09:00", YVal.s "Monday", true, false⟩, ⟨YVal.s "10:30", YVal.s "Friday", true, false⟩] (by decide)

/-- C7: the claim says save-then-reload yields an equivalent list for every
reachable event list, including one whose event has fired, and that each
persisted record has exactly the two string fields.  A firing makes
`triggered_this_week` an instance attribute (reachability shown by the
first conjunct); `yaml.dump` of that `__dict__` then writes a third field
`triggered_this_week`, and on reload `WeeklySwitchEvent(**record)` raises
`TypeError` on the unexpected keyword, so the whole load falls into the
`except` and yields the empty list — not an equivalent list. -/
theorem save_triggered_event_breaks_roundtrip :
    (alert_loop ⟨"Monday", 32400, 32400⟩ none ⟨true, true, fun _ => DMResult.sent⟩
        ["u1", "u2", "u3"] [⟨YVal.s "09:00", YVal.s "Monday", true, false⟩]).events
      = [⟨YVal.s "09:00", YVal.s "Monday", true, true⟩]
  ∧ save_events_to_yaml [⟨YVal.s "09:00", YVal.s "Monday", true, true⟩]
      = [[("day_of_week", YVal.s "Monday"), ("time_of_day", YVal.s "09:00"),
          ("triggered_this_week", YVal.b true)]]
  ∧ load_events_from_yaml
        (Storage.records (save_events_to_yaml [⟨YVal.s "09:00", YVal.s "Monday", true, true⟩]))
      = ([], LoadLog.errLog) :=
  ⟨rfl, rfl, rfl⟩

/-- C8: `remove_event` removes exactly the events whose day and time both
equal the arguments; with no match it replies "not found", performs no
save and leaves the list unchanged; with a match it persists the filtered
list and confirms. -/
theorem remove_event_exact_match_semantics
    (events : List WeeklySwitchEvent) (d t : String) :
    (remove_event events d t).events
      = events.filter (fun ev => !(ev.day_of_week == YVal.s d && ev.time_of_day == YVal.s t))
  ∧ ((∀ ev ∈ events, ¬(ev.day_of_week = YVal.s d ∧ ev.time_of_day = YVal.s t)) →
      remove_event events d t = ⟨events, none, noEventMsg d t⟩)
  ∧ ((∃ ev ∈ events, ev.day_of_week = YVal.s d ∧ ev.time_of_day = YVal.s t) →
      (remove_event events d t).saved
        = some (save_events_to_yaml
            (events.filter fun ev => !(ev.day_of_week == YVal.s d && ev.time_of_day == YVal.s t)))
        ∧ (remove_event events d t).reply = removedMsg d t) := by
  refine ⟨?_, ?_, ?_⟩
  · simp only [remove_event]
    by_cases h : events.length
        = (events.filter fun ev => !(ev.day_of_week == YVal.s d && ev.time_of_day == YVal.s t)).length
    · rw [if_pos h]
    · rw [if_neg h]
  · intro h
    have hp : ∀ ev ∈ events, (!(ev.day_of_week == YVal.s d && ev.time_of_day == YVal.s t)) = true := by
      intro ev hev
      have hne := h ev hev
      by_cases h1 : ev.day_of_week = YVal.s d
      · by_cases h2 : ev.time_of_day = YVal.s t
        · exact absurd ⟨h1, h2⟩ hne
        · simp [h2]
      · simp [h1]
    have hfe : (events.filter fun ev =>
        !(ev.day_of_week == YVal.s d && ev.time_of_day == YVal.s t)) = events :=
      List.filter_eq_self.mpr hp
    simp only [remove_event]
    rw [hfe, if_pos rfl]
  · rintro ⟨ev, hev, h1, h2⟩
    have hlt : (events.filter fun ev =>
        !(ev.day_of_week == YVal.s d && ev.time_of_day == YVal.s t)).length < events.length :=
      List.length_filter_lt_length_iff_exists.mpr ⟨ev, hev, by simp [h1, h2]⟩
    have hne : ¬events.length
        = (events.filter fun ev => !(ev.day_of_week == YVal.s d && ev.time_of_day == YVal.s t)).length :=
      fun he => absurd he.symm (Nat.ne_of_lt hlt)
    simp only [remove_event]
    rw [if_neg hne]
    exact ⟨rfl, rfl⟩

/-- C8 witness: removing Friday 10:00 from a store holding only Monday
09:00 removes nothing, replies "not found" and saves nothing. -/
theorem remove_event_exact_match_semantics_witness :
    remove_event [⟨YVal.s "09:00", YVal.s "Monday", true, false⟩] "Friday" "10:00"
      = ⟨[⟨YVal.s "09:00", YVal.s "Monday", true, false⟩], none, noEventMsg "Friday" "10:00"⟩ :=
  (remove_event_exact_match_semantics [⟨YVal.s "09:00", YVal.s "Monday", true, false⟩]
    "Friday" "10:00").2.1 (by decide)

/-- C9: `load_events_from_yaml` never raises: it returns the constructed
events when every record constructs; the missing file gives the empty list
with a warning; a malformed file, or a record set that fails to construct,
gives the empty list with the error log. -/
theorem load_events_error_handling
    (rs : List YRecord) (evs : List WeeklySwitchEvent) :
    load_events_from_yaml Storage.missing = ([], LoadLog.missingWarn)
  ∧ load_events_from_yaml Storage.malformed = ([], LoadLog.errLog)
  ∧ (constructAll rs = some evs →
      load_events_from_yaml (Storage.records rs) = (evs, LoadLog.loaded))
  ∧ (constructAll rs = none →
      load_events_from_yaml (Storage.records rs) = ([], LoadLog.errLog)) := by
  refine ⟨rfl, rfl, ?_, ?_⟩
  · intro h
    simp only [load_events_from_yaml, h]
  · intro h
    simp only [load_events_from_yaml, h]

/-- C9 witness: a well-formed two-field record loads to the corresponding
event; a two-field record with a boolean `time_of_day` also loads
successfully, since the dataclass does not type-check its arguments; a
record with an extra key makes the whole load return the empty list with
the error log. -/
theorem load_events_error_handling_witness :
    load_events_from_yaml (Storage.records
        [[("day_of_week", YVal.s "Monday"), ("time_of_day", YVal.s "09:00")]])
      = ([⟨YVal.s "09:00", YVal.s "Monday", true, false⟩], LoadLog.loaded)
  ∧ load_events_from_yaml (Storage.records
        [[("day_of_week", YVal.s "Monday"), ("time_of_day", YVal.b true)]])
      = ([⟨YVal.b true, YVal.s "Monday", true, false⟩], LoadLog.loaded)
  ∧ load_events_from_yaml (Storage.records
        [[("day_of_week", YVal.s "Monday"), ("time_of_day", YVal.s "09:00"),
          ("extra", YVal.b true)]])
      = ([], LoadLog.errLog) :=
  ⟨(load_events_error_handling
      [[("day_of_week", YVal.s "Monday"), ("time_of_day", YVal.s "09:00")]]
      [⟨YVal.s "09:00", YVal.s "Monday", true, false⟩]).2.2.1 rfl,
    (load_events_error_handling
      [[("day_of_week", YVal.s "Monday"), ("time_of_day", YVal.b true)]]
      [⟨YVal.b true, YVal.s "Monday", true, false⟩]).2.2.1 rfl,
    (load_events_error_handling
      [[("day_of_week", YVal.s "Monday"), ("time_of_day", YVal.s "09:00"),
        ("extra", YVal.b true)]] []).2.2.2 rfl⟩
